import Mathlib

/-!
# pqxx connection pool: shallow embedding and verified properties

Embedding of `src/ConnectionPool.hpp` (class `ConnectionPool` with its nested
`ConnectionGuard`) and of `src/ConnectionPoolManager.hpp` (class
`ConnectionPoolManager`, the registry of named pools).

Modelling conventions

* `size_t` / `std::atomic_size_t` values are natural numbers below `2 ^ 64`; the
  operators `++` and `--` are `size_incr` and `size_decr`, which wrap.
* `std::shared_ptr<pqxx::connection>` is `ConnPtr`: the null pointer or a handle
  naming one connection object.  Whether the object behind a handle is open is
  state of the database transport, not of the pool, so `is_open()` is read through
  an oracle `is_open : Nat → Bool` supplied at each call.
* `std::queue` is a list whose head is the front of the queue; `push` appends at the
  end and `pop` removes the head.  `pop` on an empty queue is undefined behaviour and
  is reported as a fault.
* Every member function runs under `mutex_`; one call is one atomic step on the pool
  state.  `condition_.wait_for(lock, d, pred)` returns `false` exactly when `pred` is
  still false when the wait gives up, so a call is modelled on the queue it finally
  observes: an empty queue is the timed-out wait.
* Exceptions are values of `Exn`; a throwing function returns `Except Exn _`.  A
  `catch (pqxx::broken_connection &)` handles `Exn.broken_connection` only; every
  other exception propagates.
* The connection library is the environment: what a call of `create_connection`
  meets is an `Attempt` (the `pqxx::connection` constructor throwing, or a connection
  object with its answers to `is_open()` and to each `prepare`).
* `std::unordered_map<std::string, ConnectionPool>` is a list of entries looked up by
  name; the order of the entries is not observable through `at` and `try_emplace`.
-/

namespace PqxxPool

/-! ## Machine integers -/

/-- Number of values of the 64-bit type `size_t`. -/
def SIZE_MOD : Nat := 2 ^ 64

/-- The operator `++x` on a `size_t`. -/
def size_incr (x : Nat) : Nat := (x + 1) % SIZE_MOD

/-- The operator `--x` on a `size_t`: zero wraps to the largest value, and a
successor goes to its predecessor.  This is `(x + SIZE_MOD - 1) % SIZE_MOD`, see
`size_decr_eq_mod`. -/
def size_decr : Nat → Nat
  | 0 => SIZE_MOD - 1
  | k + 1 => k % SIZE_MOD

/-- The operator `x + y` on two `size_t` values. -/
def size_add (x y : Nat) : Nat := (x + y) % SIZE_MOD

/-- The constant of `#define retries 5`. -/
def retries : Nat := 5

/-! ## Data model -/

/-- The exceptions that occur in the pool and the registry, with their `what()` text:
the three the code throws by name, and `other` for any exception of the connection
library that is not a `pqxx::broken_connection` (a `pqxx::sql_error` from `prepare`,
for instance). -/
inductive Exn where
  | broken_connection (what : String)
  | runtime_error (what : String)
  | out_of_range (what : String)
  | other (what : String)
  deriving DecidableEq, Repr

/-- A `std::shared_ptr<pqxx::connection>`. -/
inductive ConnPtr where
  | null
  | ptr (h : Nat)
  deriving DecidableEq, Repr

/-- The test `conn && conn->is_open()` of `get_connection`. -/
def ConnPtr.alive (is_open : Nat → Bool) : ConnPtr → Bool
  | .null => false
  | .ptr h => is_open h

/-- `typedef std::pair<const char *, const char *> Statement`. -/
abbrev Statement : Type := String × String

/-- What the transport does during one call of `create_connection`: the
`pqxx::connection` constructor run by `std::make_shared<pqxx::connection>(conn_str_)`
throws the exception `e`, or it yields a connection object (named by the handle `h`)
whose `is_open()` answers `is_open` and on which the `k`-th call of `prepare`, made
for the statement `st`, throws `prepare k st` when that is some exception and returns
normally when it is `none`. -/
inductive Attempt where
  | threw (e : Exn)
  | object (h : Nat) (is_open : Bool) (prepare : Nat → Statement → Option Exn)

/-- The data members of `ConnectionPool` (the mutex and the condition variable carry
no data). -/
structure ConnectionPool where
  connections : Nat
  timeout : Nat
  idle_connections_ : List ConnPtr
  active_count_ : Nat
  statements : List Statement
  conn_str_ : String
  deriving DecidableEq, Repr

/-- The data member `conn_` of `ConnectionPool::ConnectionGuard` (the reference
`pool_` is the pool the guard is released on). -/
structure ConnectionGuard where
  conn_ : ConnPtr
  deriving DecidableEq, Repr

namespace ConnectionPool

/-! ## Construction -/

/-- The loop `for (const auto &[name, sql] : statements) conn->prepare(name, sql);`
of `create_connection`: the first exception thrown by a `prepare`, if any.  `k` counts
the calls made so far. -/
def prepare_all (prepare : Nat → Statement → Option Exn) : Nat → List Statement → Option Exn
  | _, [] => none
  | k, st :: rest =>
    match prepare k st with
    | some e => some e
    | none => prepare_all prepare (k + 1) rest

/-- `ConnectionPool::create_connection` on one transport outcome, for a pool with the
given `statements`: an exception of the `pqxx::connection` constructor propagates; an
object that is not open makes it throw `broken_connection("Connection failed")`;
otherwise every statement is prepared, an exception of `prepare` propagating, and the
pointer is returned.  It never returns the null pointer. -/
def create_connection (statements : List Statement) (a : Attempt) : Except Exn ConnPtr :=
  match a with
  | .threw e => .error e
  | .object h is_open prepare =>
    if !is_open then .error (.broken_connection "Connection failed")
    else
      match prepare_all prepare 0 statements with
      | some e => .error e
      | none => .ok (.ptr h)

/-- The inner loop `for (int i = 0; i < retries; i++)` of the constructor, on the pair
(idle queue, `failed`).  `fuel` is the number of iterations left, `retries - i`; the
loop is entered with `fuel = retries` and `i = 0`.  A successful attempt is pushed and
the loop is left (`break`); a caught `pqxx::broken_connection` increments `failed`
when `i == retries - 1` and goes on (`continue`); any other exception is not caught
and leaves the loop and the constructor. -/
def retry_loop (statements : List Statement) (att : Nat → Attempt) :
    Nat → Nat → List ConnPtr × Nat → Except Exn (List ConnPtr × Nat)
  | 0, _, st => .ok st
  | fuel + 1, i, (q, failed) =>
    match create_connection statements (att i) with
    | .ok c => .ok (q ++ [c], failed)
    | .error (.broken_connection _) =>
      retry_loop statements att fuel (i + 1)
        (q, if i = retries - 1 then size_incr failed else failed)
    | .error e => .error e

/-- The outer loop `for (size_t i = 0; i < connections; ++i)` of the constructor.
`k` is the number of iterations left, `connections - i`; `world i j` is the transport
outcome of attempt `j` for slot `i`. -/
def slot_loop (world : Nat → Nat → Attempt) (statements : List Statement) :
    Nat → Nat → List ConnPtr × Nat → Except Exn (List ConnPtr × Nat)
  | 0, _, st => .ok st
  | k + 1, i, st =>
    match retry_loop statements (world i) retries 0 st with
    | .ok st2 => slot_loop world statements k (i + 1) st2
    | .error e => .error e

/-- The constructor `ConnectionPool::ConnectionPool(conn_str, connections, timeout,
statements)`: the members are initialised from the arguments, the slots are filled,
and `broken_connection` is thrown when `failed == connections`.  An exception that
escapes the loops escapes the constructor: no pool is constructed. -/
def construct (world : Nat → Nat → Attempt) (conn_str : String) (connections : Nat)
    (timeout : Nat) (statements : List Statement) : Except Exn ConnectionPool :=
  match slot_loop world statements connections 0 ([], 0) with
  | .error e => .error e
  | .ok st =>
    if st.2 = connections then
      .error (.broken_connection "Couldnt connect to database, while initiailzing connections")
    else
      .ok { connections := connections, timeout := timeout, idle_connections_ := st.1,
            active_count_ := 0, statements := statements, conn_str_ := conn_str }

/-- `ConnectionPool::get_current_connections`. -/
def get_current_connections (p : ConnectionPool) : Nat := p.connections

/-- The connection a slot ends up with: the result of the first of its `retries`
attempts that succeeds, if any. -/
def slot_result (statements : List Statement) (att : Nat → Attempt) : Option ConnPtr :=
  (List.range retries).findSome? (fun j => (create_connection statements (att j)).toOption)

/-- A transport on which every attempt of `att` either succeeds or fails with
`pqxx::broken_connection`. -/
def connectivity_only (statements : List Statement) (att : Nat → Attempt) : Prop :=
  ∀ j e, create_connection statements (att j) = .error e → ∃ what, e = .broken_connection what

/-! ## Acquire, release, resize, drain -/

/-- `ConnectionPool::protocol_con_failed`: `connections--`. -/
def protocol_con_failed (p : ConnectionPool) : ConnectionPool :=
  { p with connections := size_decr p.connections }

/-- `ConnectionPool::get_connection`, returning the outcome and the pool afterwards.
On an empty queue the wait times out and `runtime_error("Connection pool timeout")`
is thrown.  Otherwise the front is taken and popped; if it passes
`conn && conn->is_open()` then `++active_count_` and a guard on it is returned; if
not, `protocol_con_failed()` runs and `runtime_error("Connection failed")` is
thrown. -/
def get_connection (is_open : Nat → Bool) (p : ConnectionPool) :
    Except Exn ConnectionGuard × ConnectionPool :=
  match p.idle_connections_ with
  | [] => (.error (.runtime_error "Connection pool timeout"), p)
  | conn :: rest =>
    if conn.alive is_open then
      (.ok { conn_ := conn },
        { p with idle_connections_ := rest, active_count_ := size_incr p.active_count_ })
    else
      (.error (.runtime_error "Connection failed"),
        protocol_con_failed { p with idle_connections_ := rest })

/-- The fault of executing `idle_connections_.pop()` on an empty queue. -/
inductive Fault where
  | pop_on_empty_queue
  deriving DecidableEq, Repr

/-- The loop `while (idle_connections_.size() + active_count_) idle_connections_.pop();`
of `drain`, on the idle queue (`active_count_` is not changed by the loop).  Each
iteration that pops shortens the queue; an iteration entered on the empty queue pops
it, which is the fault. -/
def drain_loop (active_count : Nat) : List ConnPtr → Except Fault (List ConnPtr)
  | [] => if size_add 0 active_count ≠ 0 then .error .pop_on_empty_queue else .ok []
  | c :: rest =>
    if size_add (c :: rest).length active_count ≠ 0 then drain_loop active_count rest
    else .ok (c :: rest)

/-- `ConnectionPool::drain`: the loop, then `active_count_ = 0`. -/
def drain (p : ConnectionPool) : Except Fault ConnectionPool :=
  match drain_loop p.active_count_ p.idle_connections_ with
  | .error f => .error f
  | .ok q => .ok { p with idle_connections_ := q, active_count_ := 0 }

/-- `ConnectionPool::increase_connection`, returning the outcome and the pool
afterwards.  `att j` is the outcome the transport has in store for the `j`-th call of
`create_connection` made by this call of the function; the body calls it once, with
the pool's statements.  On success the connection is pushed, `++connections`, and `1`
is returned; a caught `pqxx::broken_connection` returns `0`; any other exception is
not caught and propagates, the pool being as it was. -/
def increase_connection (att : Nat → Attempt) (p : ConnectionPool) :
    Except Exn Bool × ConnectionPool :=
  match create_connection p.statements (att 0) with
  | .ok conn =>
    (.ok true, { p with idle_connections_ := p.idle_connections_ ++ [conn],
                        connections := size_incr p.connections })
  | .error (.broken_connection _) => (.ok false, p)
  | .error e => (.error e, p)

/-- `ConnectionPool::decrease_connection`: `false` when the ten-second wait ends on an
empty queue; otherwise the front is popped, `--connections`, and `true`. -/
def decrease_connection (p : ConnectionPool) : Bool × ConnectionPool :=
  match p.idle_connections_ with
  | [] => (false, p)
  | _ :: rest =>
    (true, { p with idle_connections_ := rest, connections := size_decr p.connections })

/-- The calls `get_connection()` made `k` times in a row with every returned guard kept
alive, as `test_connection_acquisition` does with `c1`, `c2`, `c3`, `c4`: the
outcomes in call order and the pool afterwards. -/
def acquire_many (is_open : Nat → Bool) :
    Nat → ConnectionPool → List (Except Exn ConnectionGuard) × ConnectionPool
  | 0, p => ([], p)
  | k + 1, p =>
    let r := get_connection is_open p
    let rs := acquire_many is_open k r.2
    (r.1 :: rs.1, rs.2)

end ConnectionPool

/-- The destructor `ConnectionGuard::~ConnectionGuard` on the guard's pool: `conn_` is
pushed on the idle queue and `--pool_.active_count_`. -/
def ConnectionGuard.destructor (g : ConnectionGuard) (p : ConnectionPool) : ConnectionPool :=
  { p with idle_connections_ := p.idle_connections_ ++ [g.conn_],
           active_count_ := size_decr p.active_count_ }

/-! ## The pool together with its callers -/

/-- A pool and the `ConnectionGuard` objects currently alive in its callers. -/
structure System where
  pool : ConnectionPool
  guards : List ConnectionGuard
  deriving DecidableEq, Repr

/-- One atomic operation on a pool by some caller.  `get_connection` carries the state
of the transport at the time of the call; `release i` is the destruction of the
`i`-th live guard; `increase_connection` carries the outcomes the transport has in
store for it. -/
inductive Op where
  | get_connection (is_open : Nat → Bool)
  | release (i : Nat)
  | increase_connection (att : Nat → Attempt)
  | decrease_connection
  | drain

/-- Whether an operation is an acquire or a release. -/
def Op.isAcquireOrRelease : Op → Bool
  | .get_connection _ => true
  | .release _ => true
  | _ => false

/-- The effect of one operation.  There is no successor when the guard to release does
not exist, or when `drain` pops the empty queue. -/
def System.step (s : System) : Op → Option System
  | .get_connection is_open =>
    match ConnectionPool.get_connection is_open s.pool with
    | (.ok g, p) => some { pool := p, guards := s.guards ++ [g] }
    | (.error _, p) => some { pool := p, guards := s.guards }
  | .release i =>
    match s.guards[i]? with
    | none => none
    | some g => some { pool := g.destructor s.pool, guards := s.guards.eraseIdx i }
  | .increase_connection att =>
    some { s with pool := (ConnectionPool.increase_connection att s.pool).2 }
  | .decrease_connection =>
    some { s with pool := (ConnectionPool.decrease_connection s.pool).2 }
  | .drain =>
    match ConnectionPool.drain s.pool with
    | .ok p => some { s with pool := p }
    | .error _ => none

/-- The effect of a sequence of operations, first to last. -/
def System.run : List Op → System → Option System
  | [], s => some s
  | op :: ops, s =>
    match s.step op with
    | none => none
    | some t => System.run ops t

/-- The bound `activeCount + idleSet.size() ≤ capacity`. -/
def ConnectionPool.Bounded (p : ConnectionPool) : Prop :=
  p.active_count_ + p.idle_connections_.length ≤ p.connections

instance (p : ConnectionPool) : Decidable p.Bounded := by
  unfold ConnectionPool.Bounded; infer_instance

/-! ## The registry of named pools (`src/ConnectionPoolManager.hpp`) -/

/-- The data member `pools_` of `ConnectionPoolManager`, a
`std::unordered_map<std::string, ConnectionPool>`: a list of (name, pool) entries, a
name being looked up to its first entry (the mutex carries no data). -/
structure ConnectionPoolManager where
  pools_ : List (String × ConnectionPool)
  deriving DecidableEq, Repr

namespace ConnectionPoolManager

/-- `ConnectionPoolManager::registerPool`, returning the outcome and the registry
afterwards.  `pools_.try_emplace(name, conn_str_, numbr_conns, timeout, statements)`
does nothing when the name is present; when it is absent it constructs the pool in
place, and a constructor that throws leaves the map as it was.  The caught
`pqxx::broken_connection` returns `0`, any other exception propagates, and a call that
throws nothing returns `1`.  `world` is what the transport has in store for a
construction. -/
def registerPool (world : Nat → Nat → Attempt) (m : ConnectionPoolManager)
    (conn_str_ : String) (name : String) (numbr_conns : Nat) (timeout : Nat)
    (statements : List Statement) : Except Exn Bool × ConnectionPoolManager :=
  match m.pools_.lookup name with
  | some _ => (.ok true, m)
  | none =>
    match ConnectionPool.construct world conn_str_ numbr_conns timeout statements with
    | .ok pool => (.ok true, { pools_ := (name, pool) :: m.pools_ })
    | .error (.broken_connection _) => (.ok false, m)
    | .error e => (.error e, m)

/-- `ConnectionPoolManager::get_pool`, returning the outcome and the registry
afterwards: `pools_.at(name)` gives the pool stored under the name or throws
`std::out_of_range`. -/
def get_pool (m : ConnectionPoolManager) (name : String) :
    Except Exn ConnectionPool × ConnectionPoolManager :=
  match m.pools_.lookup name with
  | some pool => (.ok pool, m)
  | none => (.error (.out_of_range "unordered_map::at"), m)

/-- The loop `for (auto &[name, pool] : pools_) pool.drain();` of `shutdown`: the
entries with their pools drained, or the fault of the first `drain` that pops an
empty queue. -/
def drain_all :
    List (String × ConnectionPool) → Except ConnectionPool.Fault (List (String × ConnectionPool))
  | [] => .ok []
  | (name, pool) :: rest =>
    match ConnectionPool.drain pool with
    | .error f => .error f
    | .ok drained =>
      match drain_all rest with
      | .error f => .error f
      | .ok others => .ok ((name, drained) :: others)

/-- `ConnectionPoolManager::shutdown`: the loop over the pools, then `pools_.clear()`. -/
def shutdown (m : ConnectionPoolManager) :
    Except ConnectionPool.Fault ConnectionPoolManager :=
  match drain_all m.pools_ with
  | .error f => .error f
  | .ok _ => .ok { pools_ := [] }

end ConnectionPoolManager

/-! ## Concrete transports and pools used as instances -/

/-- A transport on which nothing connects. -/
def world_all_down : Nat → Nat → Attempt :=
  fun _ _ => .threw (.broken_connection "down")

/-- A pool whose only connection is leased out. -/
def pool_one_leased : ConnectionPool :=
  { connections := 1, timeout := 1000, idle_connections_ := [],
    active_count_ := 1, statements := [], conn_str_ := "db" }

/-- The state a completed `drain` would leave `pool_one_leased` in: nothing idle and
`active_count_` reset, the guard on connection 0 still alive in its caller. -/
def pool_one_drained : ConnectionPool :=
  { connections := 1, timeout := 1000, idle_connections_ := [],
    active_count_ := 0, statements := [], conn_str_ := "db" }

/-- A pool with one idle connection whose `active_count_` is the largest `size_t`. -/
def pool_active_max : ConnectionPool :=
  { connections := 1, timeout := 1000, idle_connections_ := [.ptr 0],
    active_count_ := 18446744073709551615, statements := [], conn_str_ := "db" }

/-- A transport on which slot 1 gets a connection at its third attempt and nothing
else connects. -/
def world_one_late : Nat → Nat → Attempt :=
  fun i j =>
    if i = 1 ∧ j = 2 then .object 7 true (fun _ _ => none)
    else .threw (.broken_connection "down")

/-- A transport on which the addresses of slots 1 and 3 are unreachable and every
other slot connects at once, slot `i` getting the connection object `i`. -/
def world_two_unreachable : Nat → Nat → Attempt :=
  fun i _ =>
    if i = 1 ∨ i = 3 then .threw (.broken_connection "unreachable")
    else .object i true (fun _ _ => none)

/-- A transport on which only slot 0 connects (at once, to the connection object 0). -/
def world_first_only : Nat → Nat → Attempt :=
  fun i _ =>
    if i = 0 then .object 0 true (fun _ _ => none)
    else .threw (.broken_connection "down")

/-- A transport on which every slot connects at once, slot `i` getting the connection
object `i`. -/
def world_all_up : Nat → Nat → Attempt :=
  fun i _ => .object i true (fun _ _ => none)

/-- A pool with the two idle connections 1 and 2, one lease out, and capacity 3. -/
def pool_two_idle : ConnectionPool :=
  { connections := 3, timeout := 1000, idle_connections_ := [.ptr 1, .ptr 2],
    active_count_ := 1, statements := [], conn_str_ := "db" }

/-- A pool of capacity 3 with all three connections leased out. -/
def pool_all_leased : ConnectionPool :=
  { connections := 3, timeout := 1000, idle_connections_ := [],
    active_count_ := 3, statements := [], conn_str_ := "db" }

/-- The pool `ConnectionPool("db", 3, 1000, {})` built on `world_all_up`. -/
def pool_three_fresh : ConnectionPool :=
  { connections := 3, timeout := 1000, idle_connections_ := [.ptr 0, .ptr 1, .ptr 2],
    active_count_ := 0, statements := [], conn_str_ := "db" }

/-- A transport state in which every connection object is open. -/
def all_open : Nat → Bool := fun _ => true

/-- A transport state in which connection object 1 has died and the others are open. -/
def one_dead : Nat → Bool := fun h => h != 1

/-- A run using every operation: acquire connection 0, find connection 1 dead, release
the guard, grow, shrink, drain. -/
def ops_mixed : List Op :=
  [.get_connection all_open, .get_connection one_dead, .release 0,
   .increase_connection (world_all_up 9), .decrease_connection, .drain]

/-- The state `ops_mixed` leads to from `pool_three_fresh`. -/
def system_after_mixed : System :=
  { pool := { connections := 2, timeout := 1000, idle_connections_ := [],
              active_count_ := 0, statements := [], conn_str_ := "db" },
    guards := [] }

/-- An interleaving of acquires and releases: two acquires, the first guard released,
one more acquire. -/
def ops_acquire_release : List Op :=
  [.get_connection all_open, .get_connection all_open, .release 0, .get_connection all_open]

/-- The state `ops_acquire_release` leads to from `pool_three_fresh`. -/
def system_after_acquire_release : System :=
  { pool := { connections := 3, timeout := 1000, idle_connections_ := [.ptr 0],
              active_count_ := 2, statements := [], conn_str_ := "db" },
    guards := [{ conn_ := .ptr 1 }, { conn_ := .ptr 2 }] }

/-- A transport on which every slot connects at once, slot `i` getting the connection
object `i`; on the object of slot 1 `prepare` throws an exception that is not a
`pqxx::broken_connection`, on the others it returns normally. -/
def world_prepare_throws : Nat → Nat → Attempt :=
  fun i _ =>
    .object i true (fun _ _ => if i = 1 then some (.other "sql_error") else none)

/-- A pool whose `connections` is 0 although one connection is idle. -/
def pool_capacity_zero : ConnectionPool :=
  { connections := 0, timeout := 1000, idle_connections_ := [.ptr 1],
    active_count_ := 0, statements := [], conn_str_ := "db" }

/-- A pool whose `connections` is the largest `size_t`. -/
def pool_capacity_max : ConnectionPool :=
  { connections := 18446744073709551615, timeout := 1000, idle_connections_ := [.ptr 0],
    active_count_ := 0, statements := [], conn_str_ := "db" }

/-- A registry holding the pool of three under the name `main_db`. -/
def registry_main : ConnectionPoolManager :=
  { pools_ := [("main_db", pool_three_fresh)] }

/-- A registry whose pool `main_db` has two idle connections and one lease out. -/
def registry_leased : ConnectionPoolManager :=
  { pools_ := [("main_db", pool_two_idle)] }

/-! ## Arithmetic of the counters -/

theorem size_incr_of_lt {x : Nat} (h : x + 1 < SIZE_MOD) : size_incr x = x + 1 := by
  unfold size_incr; exact Nat.mod_eq_of_lt h

theorem size_decr_eq_mod (x : Nat) : size_decr x = (x + SIZE_MOD - 1) % SIZE_MOD := by
  cases x with
  | zero => simp [size_decr, SIZE_MOD]
  | succ k =>
    have e : k + 1 + SIZE_MOD - 1 = k + SIZE_MOD := by omega
    rw [e, Nat.add_mod_right]
    rfl

theorem size_decr_of_pos {x : Nat} (h0 : 0 < x) (h : x < SIZE_MOD) :
    size_decr x = x - 1 := by
  cases x with
  | zero => omega
  | succ k =>
    show k % SIZE_MOD = k + 1 - 1
    rw [Nat.mod_eq_of_lt (by omega)]
    omega

theorem SIZE_MOD_pos : 0 < SIZE_MOD := by decide

/-! ## Construction: the two loops -/

namespace ConnectionPool

/-- When the inner loop ends normally the slot has either pushed one connection or
counted one failure. -/
theorem retry_loop_count (statements : List Statement) (att : Nat → Attempt) :
    ∀ (fuel i : Nat) (q : List ConnPtr) (failed : Nat) (r : List ConnPtr × Nat),
      i + fuel = retries → 0 < fuel → failed + 1 < SIZE_MOD →
      retry_loop statements att fuel i (q, failed) = .ok r →
      (r.1.length = q.length + 1 ∧ r.2 = failed) ∨
        (r.1.length = q.length ∧ r.2 = failed + 1) := by
  intro fuel
  induction fuel with
  | zero => intro i q failed r _ h; omega
  | succ fuel ih =>
    intro i q failed r hsum _ hlt h
    cases hc : create_connection statements (att i) with
    | ok c =>
      simp only [retry_loop, hc] at h
      injection h with h
      subst h
      simp
    | error e =>
      cases e with
      | broken_connection w =>
        simp only [retry_loop, hc] at h
        rcases Nat.eq_zero_or_pos fuel with h0 | hpos
        · subst h0
          have hi : i = retries - 1 := by omega
          simp only [retry_loop, hi, if_true] at h
          injection h with h
          subst h
          exact Or.inr ⟨rfl, size_incr_of_lt hlt⟩
        · have hi : i ≠ retries - 1 := by omega
          rw [if_neg hi] at h
          exact ih (i + 1) q failed r (by omega) hpos hlt h
      | runtime_error w => simp [retry_loop, hc] at h
      | out_of_range w => simp [retry_loop, hc] at h
      | other w => simp [retry_loop, hc] at h

/-- When the outer loop ends normally every slot it ran has either pushed one
connection or counted one failure. -/
theorem slot_loop_count (world : Nat → Nat → Attempt) (statements : List Statement) :
    ∀ (k i : Nat) (q : List ConnPtr) (failed : Nat) (r : List ConnPtr × Nat),
      failed + k < SIZE_MOD →
      slot_loop world statements k i (q, failed) = .ok r →
      r.1.length + r.2 = q.length + failed + k := by
  intro k
  induction k with
  | zero =>
    intro i q failed r _ h
    simp only [slot_loop] at h
    injection h with h
    subst h
    rfl
  | succ k ih =>
    intro i q failed r hlt h
    simp only [slot_loop] at h
    cases hr : retry_loop statements (world i) retries 0 (q, failed) with
    | error e => simp [hr] at h
    | ok st2 =>
      simp only [hr] at h
      obtain ⟨q2, f2⟩ := st2
      have h1 := retry_loop_count statements (world i) retries 0 q failed (q2, f2)
        (by simp) (by decide) (by omega) hr
      have h2 := ih (i + 1) q2 f2 r (by simp only at h1; omega) h
      simp only at h1
      omega

/-- A pool that was constructed has the requested size as `connections`, no active
lease, at most that many idle connections, and at least one. -/
theorem construct_ok (world : Nat → Nat → Attempt) (conn_str : String) (n timeout : Nat)
    (statements : List Statement) (hn : n < SIZE_MOD) (p : ConnectionPool)
    (h : construct world conn_str n timeout statements = .ok p) :
    p.connections = n ∧ p.active_count_ = 0 ∧ p.idle_connections_.length ≤ n ∧
      1 ≤ p.idle_connections_.length := by
  unfold construct at h
  cases hs : slot_loop world statements n 0 ([], 0) with
  | error e => simp [hs] at h
  | ok st =>
    simp only [hs] at h
    obtain ⟨q, f⟩ := st
    have hcount := slot_loop_count world statements n 0 [] 0 (q, f) (by omega) hs
    simp only [List.length_nil] at hcount
    by_cases hf : f = n
    · simp [hf] at h
    · simp only [hf, if_false] at h
      injection h with h
      subst h
      refine ⟨rfl, rfl, ?_, ?_⟩
      · show q.length ≤ n
        omega
      · show 1 ≤ q.length
        omega

/-- A pool that was constructed has at least one idle connection. -/
theorem construct_ok_nonempty (world : Nat → Nat → Attempt) (conn_str : String)
    (n timeout : Nat) (statements : List Statement) (hn : n < SIZE_MOD) (p : ConnectionPool)
    (h : construct world conn_str n timeout statements = .ok p) :
    1 ≤ p.idle_connections_.length :=
  (construct_ok world conn_str n timeout statements hn p h).2.2.2

/-- On attempts that fail with `broken_connection` only, the inner loop started at
attempt `i` with `fuel` attempts left, in terms of the first success among those
attempts. -/
theorem retry_loop_from (statements : List Statement) (att : Nat → Attempt)
    (hclean : connectivity_only statements att) :
    ∀ (fuel i : Nat) (q : List ConnPtr) (failed : Nat), i + fuel = retries → 0 < fuel →
      retry_loop statements att fuel i (q, failed) =
        .ok (match (List.range' i fuel).findSome?
            (fun j => (create_connection statements (att j)).toOption) with
          | some c => (q ++ [c], failed)
          | none => (q, size_incr failed)) := by
  intro fuel
  induction fuel with
  | zero => intro i q failed _ h; omega
  | succ fuel ih =>
    intro i q failed hsum _
    rw [List.range'_succ, List.findSome?_cons]
    cases hc : create_connection statements (att i) with
    | ok c => simp [retry_loop, hc, Except.toOption]
    | error e =>
      obtain ⟨w, hw⟩ := hclean i e hc
      subst hw
      simp only [retry_loop, hc, Except.toOption]
      rcases Nat.eq_zero_or_pos fuel with h0 | hpos
      · subst h0
        have hi : i = retries - 1 := by omega
        simp [retry_loop, hi]
      · have hi : i ≠ retries - 1 := by omega
        rw [if_neg hi]
        exact ih (i + 1) q failed (by omega) hpos

/-- On attempts that fail with `broken_connection` only, the inner loop as the
constructor runs it: the slot's connection is pushed, or `failed` is incremented. -/
theorem retry_loop_eq (statements : List Statement) (att : Nat → Attempt)
    (hclean : connectivity_only statements att) (q : List ConnPtr) (failed : Nat) :
    retry_loop statements att retries 0 (q, failed) =
      .ok (match slot_result statements att with
        | some c => (q ++ [c], failed)
        | none => (q, size_incr failed)) := by
  have h := retry_loop_from statements att hclean retries 0 q failed (by simp) (by decide)
  rw [h, slot_result, List.range_eq_range']

/-- A slot has no connection exactly when none of its `retries` attempts succeeded. -/
theorem slot_result_eq_none_iff (statements : List Statement) (att : Nat → Attempt) :
    slot_result statements att = none ↔
      ∀ j, j < retries → (create_connection statements (att j)).toOption = none := by
  simp [slot_result, List.findSome?_eq_none_iff]

/-- On a transport that fails with `broken_connection` only, the outer loop: the
queue gains the connections of the successful slots in slot order, and `failed` gains
the number of failed slots, as long as it cannot wrap. -/
theorem slot_loop_eq (world : Nat → Nat → Attempt) (statements : List Statement)
    (hclean : ∀ s, connectivity_only statements (world s)) :
    ∀ (k i : Nat) (q : List ConnPtr) (failed : Nat), failed + k < SIZE_MOD →
      slot_loop world statements k i (q, failed) =
        .ok (q ++ (List.range' i k).filterMap (fun s => slot_result statements (world s)),
         failed + (List.range' i k).countP
           (fun s => (slot_result statements (world s)).isNone)) := by
  intro k
  induction k with
  | zero => intro i q failed _; simp [slot_loop]
  | succ k ih =>
    intro i q failed hlt
    rw [slot_loop, retry_loop_eq statements (world i) (hclean i), List.range'_succ,
      List.filterMap_cons, List.countP_cons]
    cases hs : slot_result statements (world i) with
    | some c =>
      simp only [Option.isNone_some]
      rw [ih (i + 1) (q ++ [c]) failed (by omega)]
      simp
    | none =>
      simp only [Option.isNone_none]
      rw [size_incr_of_lt (by omega), ih (i + 1) q (failed + 1) (by omega)]
      simp; omega

/-- On a transport that fails with `broken_connection` only, the state the
constructor reaches before its final test. -/
theorem slot_loop_construct (world : Nat → Nat → Attempt) (statements : List Statement)
    (hclean : ∀ s, connectivity_only statements (world s)) (n : Nat) (hn : n < SIZE_MOD) :
    slot_loop world statements n 0 ([], 0) =
      .ok ((List.range n).filterMap (fun s => slot_result statements (world s)),
       (List.range n).countP (fun s => (slot_result statements (world s)).isNone)) := by
  rw [slot_loop_eq world statements hclean n 0 [] 0 (by omega), List.range_eq_range']
  simp

/-- The final test `failed == connections` holds exactly when every slot failed. -/
theorem failed_eq_iff (world : Nat → Nat → Attempt) (statements : List Statement) (n : Nat) :
    (List.range n).countP (fun s => (slot_result statements (world s)).isNone) = n ↔
      ∀ i, i < n → slot_result statements (world i) = none := by
  have h := @List.countP_eq_length _ (List.range n)
    (fun s => (slot_result statements (world s)).isNone)
  rw [List.length_range] at h
  rw [h]
  simp

/-- The number of connections kept by `filterMap` is the number of slots that have
one. -/
theorem length_filterMap_slots (f : Nat → Option ConnPtr) (l : List Nat) :
    (l.filterMap f).length = l.countP (fun i => (f i).isSome) := by
  induction l with
  | nil => rfl
  | cons a l ih =>
    rw [List.filterMap_cons, List.countP_cons]
    cases h : f a <;> simp [ih]

/-- What the constructor does on a transport that fails with `broken_connection`
only, in closed form. -/
theorem construct_eq (world : Nat → Nat → Attempt) (conn_str : String) (n timeout : Nat)
    (statements : List Statement) (hclean : ∀ s, connectivity_only statements (world s))
    (hn : n < SIZE_MOD) :
    construct world conn_str n timeout statements =
      if (∀ i, i < n → slot_result statements (world i) = none) then
        .error (.broken_connection "Couldnt connect to database, while initiailzing connections")
      else
        .ok { connections := n, timeout := timeout,
              idle_connections_ :=
                (List.range n).filterMap (fun s => slot_result statements (world s)),
              active_count_ := 0, statements := statements, conn_str_ := conn_str } := by
  unfold construct
  simp only [slot_loop_construct world statements hclean n hn, failed_eq_iff]

/-- C1, as amended: on a transport whose failed attempts all fail with
`pqxx::broken_connection`, construction with requested size `n` (a `size_t`) throws
`pqxx::broken_connection` if and only if every one of the `n` slots failed all
`retries = 5` of its attempts; and when some slot succeeds within its attempts,
construction succeeds and the idle queue holds, in slot order, exactly the connection
of each successful slot (its first successful attempt), so as many connections as
there are successful slots. -/
theorem construct_fails_iff_every_slot_failed (world : Nat → Nat → Attempt)
    (conn_str : String) (n timeout : Nat) (statements : List Statement)
    (hclean : ∀ s, connectivity_only statements (world s)) (hn : n < SIZE_MOD) :
    ((∃ what, construct world conn_str n timeout statements = .error (.broken_connection what))
        ↔ ∀ i, i < n → ∀ j, j < retries →
            (create_connection statements (world i j)).toOption = none) ∧
    ((∃ i, i < n ∧ ∃ j, j < retries ∧
        (create_connection statements (world i j)).toOption ≠ none) →
      ∃ p, construct world conn_str n timeout statements = .ok p ∧
        p.idle_connections_ =
          (List.range n).filterMap (fun i => slot_result statements (world i)) ∧
        p.idle_connections_.length =
          (List.range n).countP (fun i => (slot_result statements (world i)).isSome)) := by
  rw [construct_eq world conn_str n timeout statements hclean hn]
  have key : (∀ i, i < n → slot_result statements (world i) = none) ↔
      ∀ i, i < n → ∀ j, j < retries →
        (create_connection statements (world i j)).toOption = none := by
    constructor
    · intro h i hi
      exact (slot_result_eq_none_iff statements (world i)).1 (h i hi)
    · intro h i hi
      exact (slot_result_eq_none_iff statements (world i)).2 (h i hi)
  constructor
  · constructor
    · rintro ⟨what, h⟩
      by_cases hall : ∀ i, i < n → slot_result statements (world i) = none
      · exact key.1 hall
      · rw [if_neg hall] at h
        cases h
    · intro h
      rw [if_pos (key.2 h)]
      exact ⟨_, rfl⟩
  · rintro ⟨i, hi, j, hj, hne⟩
    have hall : ¬ ∀ i, i < n → slot_result statements (world i) = none := by
      intro h
      exact hne (key.1 h i hi j hj)
    rw [if_neg hall]
    exact ⟨_, rfl, rfl, length_filterMap_slots _ _⟩

/-- On a connection whose `prepare` never throws, every statement is prepared. -/
theorem prepare_all_none :
    ∀ (statements : List Statement) (k : Nat),
      prepare_all (fun _ _ => none) k statements = none := by
  intro statements
  induction statements with
  | nil => intro k; rfl
  | cons st rest ih =>
    intro k
    simp only [prepare_all]
    exact ih (k + 1)

/-- An attempt that yields an open connection object on which `prepare` never throws
succeeds, whatever the statements. -/
theorem create_connection_up (statements : List Statement) (h : Nat) :
    create_connection statements (.object h true (fun _ _ => none)) = .ok (.ptr h) := by
  simp only [create_connection, prepare_all_none]
  rfl

/-- Instance of C1: two slots requested, slot 1 connecting at its third attempt. -/
theorem construct_fails_iff_every_slot_failed_witness :
    (∀ s, connectivity_only [] (world_one_late s)) ∧
    (2 : Nat) < SIZE_MOD ∧
    ∃ p, construct world_one_late "db" 2 1000 [] = .ok p ∧
      p.idle_connections_ =
        (List.range 2).filterMap (fun i => slot_result [] (world_one_late i)) ∧
      p.idle_connections_.length =
        (List.range 2).countP (fun i => (slot_result [] (world_one_late i)).isSome) :=
  have hclean : ∀ s, connectivity_only [] (world_one_late s) := by
    intro s j e he
    unfold world_one_late at he
    split at he
    · cases he
    · injection he with he
      exact ⟨_, he.symm⟩
  ⟨hclean, by decide,
   (construct_fails_iff_every_slot_failed world_one_late "db" 2 1000 [] hclean
      (by decide)).2 ⟨1, by decide, 2, by decide, by decide⟩⟩

/-- C1 as stated fails: on a transport where slot 0 connects and prepares its
statement and `prepare` on the connection of slot 1 throws an exception that is not a
`pqxx::broken_connection`, slot 0 has succeeded at its first attempt, yet the
exception is not caught by the retry loop and the constructor ends with it instead
of constructing the pool. -/
theorem construct_aborts_on_prepare_exception :
    create_connection [("q", "SELECT 1")] (world_prepare_throws 0 0) = .ok (.ptr 0) ∧
    create_connection [("q", "SELECT 1")] (world_prepare_throws 1 0) =
      .error (.other "sql_error") ∧
    construct world_prepare_throws "db" 2 1000 [("q", "SELECT 1")] =
      .error (.other "sql_error") :=
  ⟨rfl, rfl, rfl⟩

/-- C2, the code at the scenario of P5: five connections requested, the addresses of
two slots unreachable.  Construction succeeds with three idle connections, and
`get_current_connections()` answers the requested 5. -/
theorem construct_five_two_unreachable :
    (construct world_two_unreachable "db" 5 1000 []).toOption.map
        (fun p => (p.get_current_connections, p.idle_connections_)) =
      some (5, [ConnPtr.ptr 0, ConnPtr.ptr 2, ConnPtr.ptr 4]) := by
  decide

/-! ## Acquire -/

/-- The call of `get_connection` on a queue whose front is alive. -/
theorem get_connection_front_alive_eq (is_open : Nat → Bool) (p : ConnectionPool)
    (conn : ConnPtr) (rest : List ConnPtr) (hq : p.idle_connections_ = conn :: rest)
    (ha : conn.alive is_open = true) :
    get_connection is_open p =
      (.ok { conn_ := conn },
        { p with idle_connections_ := rest, active_count_ := size_incr p.active_count_ }) := by
  unfold get_connection
  rw [hq]
  simp [ha]

/-- The call of `get_connection` on a queue whose front is dead. -/
theorem get_connection_front_dead_eq (is_open : Nat → Bool) (p : ConnectionPool)
    (conn : ConnPtr) (rest : List ConnPtr) (hq : p.idle_connections_ = conn :: rest)
    (ha : conn.alive is_open = false) :
    get_connection is_open p =
      (.error (.runtime_error "Connection failed"),
        { p with idle_connections_ := rest, connections := size_decr p.connections }) := by
  unfold get_connection
  rw [hq]
  simp [ha, protocol_con_failed]

/-- The call of `get_connection` on an empty queue. -/
theorem get_connection_empty_eq (is_open : Nat → Bool) (p : ConnectionPool)
    (hq : p.idle_connections_ = []) :
    get_connection is_open p = (.error (.runtime_error "Connection pool timeout"), p) := by
  unfold get_connection
  rw [hq]

/-- C3, as amended: when the idle queue is `conn :: rest` and `conn` passes the
liveness test, `get_connection` returns a guard on exactly `conn`; the idle queue
becomes `rest`, `connections` and the other members are unchanged, and
`active_count_` is incremented as a `size_t`: it is increased by exactly 1 provided it
was below the largest `size_t`, `2 ^ 64 - 1`. -/
theorem get_connection_front_alive (is_open : Nat → Bool) (p : ConnectionPool)
    (conn : ConnPtr) (rest : List ConnPtr) (hq : p.idle_connections_ = conn :: rest)
    (ha : conn.alive is_open = true) :
    (get_connection is_open p).1 = .ok { conn_ := conn } ∧
    (get_connection is_open p).2 =
      { p with idle_connections_ := rest, active_count_ := size_incr p.active_count_ } ∧
    (get_connection is_open p).2.idle_connections_ = rest ∧
    (p.active_count_ + 1 < SIZE_MOD →
      (get_connection is_open p).2.active_count_ = p.active_count_ + 1) ∧
    (get_connection is_open p).2.connections = p.connections := by
  rw [get_connection_front_alive_eq is_open p conn rest hq ha]
  exact ⟨rfl, rfl, rfl, fun hlt => size_incr_of_lt hlt, rfl⟩

/-- Instance of C3: the front connection 1 of `pool_two_idle` is handed out. -/
theorem get_connection_front_alive_witness :
    (get_connection all_open pool_two_idle).1 = .ok { conn_ := .ptr 1 } ∧
    (get_connection all_open pool_two_idle).2.idle_connections_ = [.ptr 2] ∧
    (get_connection all_open pool_two_idle).2.active_count_ = 2 :=
  have h := get_connection_front_alive all_open pool_two_idle (.ptr 1) [.ptr 2] rfl rfl
  ⟨h.1, h.2.2.1, h.2.2.2.1 (by decide)⟩

/-- C3 as stated fails: on `pool_active_max`, whose idle queue is `[0]` with connection
0 alive and whose `active_count_` is the largest `size_t`, `get_connection` succeeds
and `++active_count_` wraps to 0, which is not an increase by 1. -/
theorem get_connection_wraps_active_count :
    pool_active_max.idle_connections_ = [.ptr 0] ∧
    (ConnPtr.ptr 0).alive all_open = true ∧
    (get_connection all_open pool_active_max).1 = .ok { conn_ := .ptr 0 } ∧
    (get_connection all_open pool_active_max).2.active_count_ = 0 ∧
    (get_connection all_open pool_active_max).2.active_count_ ≠
      pool_active_max.active_count_ + 1 := by
  have h := get_connection_front_alive_eq all_open pool_active_max (.ptr 0) [] rfl rfl
  have hw : size_incr pool_active_max.active_count_ = 0 := by decide
  have ha : (get_connection all_open pool_active_max).2.active_count_ = 0 := by
    rw [h]
    exact hw
  refine ⟨rfl, rfl, by rw [h], ha, ?_⟩
  rw [ha]
  exact fun e => Nat.succ_ne_zero _ e.symm

/-- C4: on an empty idle queue `get_connection` throws
`runtime_error("Connection pool timeout")`, returns no guard, and leaves the pool
exactly as it was. -/
theorem get_connection_timeout (is_open : Nat → Bool) (p : ConnectionPool)
    (hq : p.idle_connections_ = []) :
    get_connection is_open p = (.error (.runtime_error "Connection pool timeout"), p) := by
  unfold get_connection
  rw [hq]

/-- Instance of C4: a pool with every connection leased out. -/
theorem get_connection_timeout_witness :
    get_connection all_open pool_all_leased =
      (.error (.runtime_error "Connection pool timeout"), pool_all_leased) :=
  get_connection_timeout all_open pool_all_leased rfl

/-- C5, as amended: when the idle queue is `conn :: rest` and `conn` is dead (null, or
its object is not open), `get_connection` throws `runtime_error("Connection failed")`,
which is not the timeout error; the idle queue becomes `rest`, `active_count_` and the
other members are unchanged, and `connections` is decremented as a `size_t`: it
decreases by exactly 1 provided it was positive. -/
theorem get_connection_front_dead (is_open : Nat → Bool) (p : ConnectionPool)
    (conn : ConnPtr) (rest : List ConnPtr) (hq : p.idle_connections_ = conn :: rest)
    (hd : conn = .null ∨ ∃ h, conn = .ptr h ∧ is_open h = false) :
    (get_connection is_open p).1 = .error (.runtime_error "Connection failed") ∧
    Exn.runtime_error "Connection failed" ≠ Exn.runtime_error "Connection pool timeout" ∧
    (get_connection is_open p).2 =
      { p with idle_connections_ := rest, connections := size_decr p.connections } ∧
    (get_connection is_open p).2.idle_connections_ = rest ∧
    (0 < p.connections → p.connections < SIZE_MOD →
      (get_connection is_open p).2.connections + 1 = p.connections) ∧
    (get_connection is_open p).2.active_count_ = p.active_count_ := by
  have ha : conn.alive is_open = false := by
    rcases hd with h | ⟨h, hc, ho⟩
    · rw [h]; rfl
    · rw [hc]; exact ho
  rw [get_connection_front_dead_eq is_open p conn rest hq ha]
  refine ⟨rfl, by simp, rfl, rfl, ?_, rfl⟩
  intro h0 hlt
  show size_decr p.connections + 1 = p.connections
  rw [size_decr_of_pos h0 hlt]
  omega

/-- Instance of C5: the front connection 1 of `pool_two_idle` has died. -/
theorem get_connection_front_dead_witness :
    (get_connection one_dead pool_two_idle).1 = .error (.runtime_error "Connection failed") ∧
    (get_connection one_dead pool_two_idle).2.idle_connections_ = [.ptr 2] ∧
    (get_connection one_dead pool_two_idle).2.connections + 1 = 3 ∧
    (get_connection one_dead pool_two_idle).2.active_count_ = 1 :=
  have h := get_connection_front_dead one_dead pool_two_idle (.ptr 1) [.ptr 2] rfl
    (Or.inr ⟨1, rfl, rfl⟩)
  ⟨h.1, h.2.2.2.1, h.2.2.2.2.1 (by decide) (by decide), h.2.2.2.2.2⟩

/-- C5 as stated fails: on `pool_capacity_zero`, whose idle queue is `[1]` with
connection 1 dead and whose `connections` is 0, `get_connection` throws the
connection-lost error and `connections--` wraps to `2 ^ 64 - 1`, which is not a
decrease by 1. -/
theorem get_connection_wraps_connections :
    pool_capacity_zero.idle_connections_ = [.ptr 1] ∧
    (ConnPtr.ptr 1).alive one_dead = false ∧
    (get_connection one_dead pool_capacity_zero).1 =
      .error (.runtime_error "Connection failed") ∧
    (get_connection one_dead pool_capacity_zero).2.connections = SIZE_MOD - 1 ∧
    (get_connection one_dead pool_capacity_zero).2.connections + 1 ≠
      pool_capacity_zero.connections := by
  have h := get_connection_front_dead_eq one_dead pool_capacity_zero (.ptr 1) [] rfl rfl
  have ha : (get_connection one_dead pool_capacity_zero).2.connections = SIZE_MOD - 1 := by
    rw [h]
    rfl
  refine ⟨rfl, rfl, by rw [h], ha, ?_⟩
  exact Nat.succ_ne_zero _

/-! ## Resize -/

/-- The call of `increase_connection` whose attempt succeeds. -/
theorem increase_connection_ok_eq (att : Nat → Attempt) (p : ConnectionPool) (conn : ConnPtr)
    (h : create_connection p.statements (att 0) = .ok conn) :
    increase_connection att p =
      (.ok true, { p with idle_connections_ := p.idle_connections_ ++ [conn],
                          connections := size_incr p.connections }) := by
  unfold increase_connection
  rw [h]

/-- C10, as amended: `increase_connection` consults the outcome of one attempt only
(the first the transport has in store, whatever later attempts would give).  If that
attempt succeeds it returns `true`, the new connection is appended to the idle queue,
everything else, `active_count_` included, is unchanged, and `connections` is
incremented as a `size_t`: it increases by exactly 1 provided it was below the largest
`size_t`, `2 ^ 64 - 1`.  If the attempt fails with `pqxx::broken_connection` it
returns `false` and the pool is unchanged. -/
theorem increase_connection_single_attempt (att : Nat → Attempt) (p : ConnectionPool) :
    (∀ att2 : Nat → Attempt, att2 0 = att 0 →
      increase_connection att2 p = increase_connection att p) ∧
    (∀ conn, create_connection p.statements (att 0) = .ok conn →
      increase_connection att p =
        (.ok true, { p with idle_connections_ := p.idle_connections_ ++ [conn],
                            connections := size_incr p.connections }) ∧
      (p.connections + 1 < SIZE_MOD →
        (increase_connection att p).2.connections = p.connections + 1) ∧
      (increase_connection att p).2.active_count_ = p.active_count_) ∧
    (∀ what, create_connection p.statements (att 0) = .error (.broken_connection what) →
      increase_connection att p = (.ok false, p)) := by
  refine ⟨?_, ?_, ?_⟩
  · intro att2 h
    unfold increase_connection
    rw [h]
  · intro conn h
    rw [increase_connection_ok_eq att p conn h]
    exact ⟨rfl, fun hlt => size_incr_of_lt hlt, rfl⟩
  · intro what h
    unfold increase_connection
    rw [h]

/-- Instance of C10: a successful attempt on `pool_two_idle`, and a failed first
attempt on a transport whose third attempt would have connected. -/
theorem increase_connection_single_attempt_witness :
    ((increase_connection (world_all_up 5) pool_two_idle).1 = .ok true ∧
      (increase_connection (world_all_up 5) pool_two_idle).2.idle_connections_ =
        [.ptr 1, .ptr 2, .ptr 5] ∧
      (increase_connection (world_all_up 5) pool_two_idle).2.connections = 4) ∧
    increase_connection (world_one_late 1) pool_two_idle = (.ok false, pool_two_idle) :=
  have h := (increase_connection_single_attempt (world_all_up 5) pool_two_idle).2.1
    (.ptr 5) rfl
  ⟨⟨by rw [h.1], by rw [h.1]; rfl, h.2.1 (by decide)⟩,
   (increase_connection_single_attempt (world_one_late 1) pool_two_idle).2.2 "down" rfl⟩

/-- C10 as stated fails: on `pool_capacity_max`, whose `connections` is the largest
`size_t`, an `increase_connection` whose attempt succeeds returns `true` and
`++connections` wraps to 0, which is not an increase by 1. -/
theorem increase_connection_wraps_connections :
    create_connection pool_capacity_max.statements (world_all_up 1 0) = .ok (.ptr 1) ∧
    (increase_connection (world_all_up 1) pool_capacity_max).1 = .ok true ∧
    (increase_connection (world_all_up 1) pool_capacity_max).2.connections = 0 ∧
    (increase_connection (world_all_up 1) pool_capacity_max).2.connections ≠
      pool_capacity_max.connections + 1 := by
  have h := increase_connection_ok_eq (world_all_up 1) pool_capacity_max (.ptr 1) rfl
  have hw : size_incr pool_capacity_max.connections = 0 := by decide
  have ha : (increase_connection (world_all_up 1) pool_capacity_max).2.connections = 0 := by
    rw [h]
    exact hw
  refine ⟨rfl, by rw [h], ha, ?_⟩
  rw [ha]
  exact fun e => Nat.succ_ne_zero _ e.symm

/-! ## Acquiring every connection -/

/-- Acquiring from a queue of live connections as many times as it is long, and once
more: every call but the last gets the next connection of the queue, the last one
times out. -/
theorem acquire_many_live (is_open : Nat → Bool) :
    ∀ (q : List ConnPtr) (p : ConnectionPool), p.idle_connections_ = q →
      (∀ c, c ∈ q → c.alive is_open = true) → p.active_count_ + q.length < SIZE_MOD →
      acquire_many is_open (q.length + 1) p =
        (q.map (fun c => Except.ok { conn_ := c }) ++
            [Except.error (Exn.runtime_error "Connection pool timeout")],
         { p with idle_connections_ := [],
                  active_count_ := p.active_count_ + q.length }) := by
  intro q
  induction q with
  | nil =>
    intro p hq _ _
    have e : p = { p with idle_connections_ := [], active_count_ := p.active_count_ + 0 } := by
      cases p; simp_all
    simp only [List.length_nil, List.map_nil, List.nil_append, acquire_many,
      get_connection_empty_eq is_open p hq]
    rw [← e]
  | cons c rest ih =>
    intro p hq hlive hlt
    have hc : c.alive is_open = true := hlive c (List.mem_cons_self _ _)
    have hg := get_connection_front_alive_eq is_open p c rest hq hc
    rw [List.length_cons] at hlt
    rw [List.length_cons, acquire_many, hg]
    simp only
    rw [ih _ rfl (fun d hd => hlive d (List.mem_cons_of_mem _ hd))
      (by simp only; rw [size_incr_of_lt (by omega)]; omega)]
    simp only [List.map_cons, List.cons_append, size_incr_of_lt (show p.active_count_ + 1 < SIZE_MOD by omega)]
    congr 2
    omega

/-- C7: on a pool just constructed (requested size a `size_t`) whose `n` established
connections are all alive, `n` is at least 1, `n` calls of `get_connection` in a row
with no release in between all succeed, handing out the connections in queue order,
and the call after them, made while all `n` guards are held, throws the timeout
error; the pool is then left with an empty idle queue and `active_count_ = n`. -/
theorem acquire_all_then_timeout (world : Nat → Nat → Attempt) (conn_str : String)
    (m timeout : Nat) (statements : List Statement) (hm : m < SIZE_MOD)
    (p : ConnectionPool) (hc : construct world conn_str m timeout statements = .ok p)
    (is_open : Nat → Bool) (n : Nat) (hn : p.idle_connections_.length = n)
    (hlive : ∀ c, c ∈ p.idle_connections_ → c.alive is_open = true) :
    1 ≤ n ∧
    acquire_many is_open (n + 1) p =
      (p.idle_connections_.map (fun c => Except.ok { conn_ := c }) ++
          [Except.error (Exn.runtime_error "Connection pool timeout")],
       { p with idle_connections_ := [], active_count_ := n }) := by
  have hok := construct_ok world conn_str m timeout statements hm p hc
  have hne := construct_ok_nonempty world conn_str m timeout statements hm p hc
  refine ⟨by omega, ?_⟩
  have h := acquire_many_live is_open p.idle_connections_ p rfl hlive (by omega)
  rw [hn, hok.2.1, Nat.zero_add] at h
  exact h

/-- Instance of C7, the test `test_connection_acquisition`: a pool of three, three
acquisitions, and the fourth times out. -/
theorem acquire_all_then_timeout_witness :
    (3 : Nat) < SIZE_MOD ∧
    construct world_all_up "db" 3 1000 [] = .ok pool_three_fresh ∧
    acquire_many all_open 4 pool_three_fresh =
      ([.ok { conn_ := .ptr 0 }, .ok { conn_ := .ptr 1 }, .ok { conn_ := .ptr 2 },
        .error (.runtime_error "Connection pool timeout")],
       { pool_three_fresh with idle_connections_ := [], active_count_ := 3 }) :=
  ⟨by decide, rfl,
   (acquire_all_then_timeout world_all_up "db" 3 1000 [] (by decide) pool_three_fresh rfl
      all_open 3 rfl (by intro c hc; fin_cases hc <;> rfl)).2⟩

end ConnectionPool

/-! ## Release -/

/-- C6: for a guard that is counted in `active_count_` (a lease outstanding on a pool
whose counter was not reset by `drain`; the counter is a `size_t`), the destructor
appends the guard's connection at the back of the idle queue, decreases
`active_count_` by exactly 1, and leaves `connections` and the other members
unchanged, so the connection is a member of the idle queue right after.  The
destructor does not look at the state of the transport: this holds whether or not the
connection is still alive. -/
theorem destructor_requeues (g : ConnectionGuard) (p : ConnectionPool)
    (hpos : 0 < p.active_count_) (hlt : p.active_count_ < SIZE_MOD) :
    g.destructor p =
      { p with idle_connections_ := p.idle_connections_ ++ [g.conn_],
               active_count_ := p.active_count_ - 1 } ∧
    (g.destructor p).idle_connections_ = p.idle_connections_ ++ [g.conn_] ∧
    (g.destructor p).active_count_ + 1 = p.active_count_ ∧
    (g.destructor p).connections = p.connections ∧
    g.conn_ ∈ (g.destructor p).idle_connections_ := by
  have e : g.destructor p =
      { p with idle_connections_ := p.idle_connections_ ++ [g.conn_],
               active_count_ := p.active_count_ - 1 } := by
    unfold ConnectionGuard.destructor
    rw [size_decr_of_pos hpos hlt]
  rw [e]
  refine ⟨rfl, rfl, ?_, rfl, ?_⟩
  · show p.active_count_ - 1 + 1 = p.active_count_
    omega
  · show g.conn_ ∈ p.idle_connections_ ++ [g.conn_]
    simp

/-- Instance of C6: the guard on connection 3 is released on `pool_two_idle`. -/
theorem destructor_requeues_witness :
    (ConnectionGuard.destructor { conn_ := .ptr 3 } pool_two_idle).idle_connections_ =
      [.ptr 1, .ptr 2, .ptr 3] ∧
    (ConnectionGuard.destructor { conn_ := .ptr 3 } pool_two_idle).active_count_ + 1 = 1 ∧
    (ConnectionGuard.destructor { conn_ := .ptr 3 } pool_two_idle).connections = 3 :=
  have h := destructor_requeues { conn_ := .ptr 3 } pool_two_idle (by decide) (by decide)
  ⟨h.2.1, h.2.2.1, h.2.2.2.1⟩

/-! ## Sequences of operations -/

/-- When the loop of `drain` ends without popping the empty queue, and the counters are
in range, no lease was counted and the queue ends empty. -/
theorem drain_loop_ok (a : Nat) :
    ∀ (l q : List ConnPtr), l.length + a < SIZE_MOD →
      ConnectionPool.drain_loop a l = .ok q → a = 0 ∧ q = [] := by
  intro l
  induction l with
  | nil =>
    intro q hlt h
    have ha : size_add 0 a = a := by
      unfold size_add
      rw [Nat.zero_add]
      exact Nat.mod_eq_of_lt (by simpa using hlt)
    rw [ConnectionPool.drain_loop, ha] at h
    by_cases h0 : a = 0
    · rw [if_neg (by simpa using h0)] at h
      injection h with h
      exact ⟨h0, h.symm⟩
    · rw [if_pos h0] at h
      cases h
  | cons c rest ih =>
    intro q hlt h
    have hs : size_add (c :: rest).length a ≠ 0 := by
      unfold size_add
      rw [Nat.mod_eq_of_lt hlt]
      simp
    rw [ConnectionPool.drain_loop, if_pos hs] at h
    refine ih q ?_ h
    simp only [List.length_cons] at hlt
    omega

/-- A list is a rearrangement of any of its elements followed by the others. -/
theorem perm_cons_eraseIdx {α : Type} :
    ∀ (l : List α) (i : Nat) (a : α), l[i]? = some a → l.Perm (a :: l.eraseIdx i) := by
  intro l
  induction l with
  | nil => intro i a h; simp at h
  | cons b t ih =>
    intro i a h
    cases i with
    | zero =>
      simp at h
      subst h
      simp
    | succ i =>
      have h2 : t[i]? = some a := by simpa using h
      have := ih i a h2
      simp only [List.eraseIdx_cons_succ]
      exact (List.Perm.cons b this).trans (List.Perm.swap a b _)

/-- One operation keeps the three facts: `active_count_` is the number of live guards,
the bound holds, and `connections` is far enough below the maximum of `size_t` for the
`k` operations still to come. -/
theorem step_keeps_bound (s t : System) (op : Op) (k : Nat)
    (h1 : s.pool.active_count_ = s.guards.length) (h2 : s.pool.Bounded)
    (h3 : s.pool.connections + (k + 1) < SIZE_MOD) (hs : s.step op = some t) :
    t.pool.active_count_ = t.guards.length ∧ t.pool.Bounded ∧
      t.pool.connections + k < SIZE_MOD := by
  obtain ⟨pool, guards⟩ := s
  obtain ⟨conns, tmo, idle, act, sts, cs⟩ := pool
  simp only [ConnectionPool.Bounded] at h1 h2 h3 ⊢
  cases op with
  | get_connection is_open =>
    cases idle with
    | nil =>
      simp only [System.step, ConnectionPool.get_connection] at hs
      injection hs with hs
      subst hs
      dsimp only
      exact ⟨h1, h2, by omega⟩
    | cons c rest =>
      simp only [List.length_cons] at h2
      by_cases ha : c.alive is_open = true
      · simp only [System.step, ConnectionPool.get_connection, ha, if_true] at hs
        injection hs with hs
        subst hs
        simp only [List.length_append, List.length_cons, List.length_nil]
        rw [size_incr_of_lt (by omega)]
        exact ⟨by omega, by omega, by omega⟩
      · simp only [System.step, ConnectionPool.get_connection, ha,
          ConnectionPool.protocol_con_failed] at hs
        injection hs with hs
        subst hs
        simp only
        rw [size_decr_of_pos (by omega) (by omega)]
        exact ⟨h1, by omega, by omega⟩
  | release i =>
    simp only [System.step] at hs
    cases hg : guards[i]? with
    | none => simp [hg] at hs
    | some g =>
      simp only [hg] at hs
      injection hs with hs
      subst hs
      have hi : i < guards.length := by
        rcases List.getElem?_eq_some.1 hg with ⟨hi, _⟩
        exact hi
      simp only [ConnectionGuard.destructor, List.length_append, List.length_cons,
        List.length_nil, List.length_eraseIdx_of_lt hi]
      rw [size_decr_of_pos (by omega) (by omega)]
      exact ⟨by omega, by omega, by omega⟩
  | increase_connection att =>
    simp only [System.step, ConnectionPool.increase_connection] at hs
    injection hs with hs
    subst hs
    cases hc : ConnectionPool.create_connection sts (att 0) with
    | error e => cases e <;> (simp only; exact ⟨h1, h2, by omega⟩)
    | ok conn =>
      simp only [List.length_append, List.length_cons, List.length_nil]
      rw [size_incr_of_lt (by omega)]
      exact ⟨h1, by omega, by omega⟩
  | decrease_connection =>
    simp only [System.step, ConnectionPool.decrease_connection] at hs
    injection hs with hs
    subst hs
    cases idle with
    | nil => simp only; exact ⟨h1, h2, by omega⟩
    | cons c rest =>
      simp only [List.length_cons] at h2 ⊢
      rw [size_decr_of_pos (by omega) (by omega)]
      exact ⟨h1, by omega, by omega⟩
  | drain =>
    simp only [System.step, ConnectionPool.drain] at hs
    cases hd : ConnectionPool.drain_loop act idle with
    | error f => simp [hd] at hs
    | ok q =>
      simp only [hd] at hs
      injection hs with hs
      subst hs
      have := drain_loop_ok act idle q (by omega) hd
      simp only
      rw [this.2]
      exact ⟨by omega, by simp, by omega⟩

/-- The three facts of `step_keeps_bound` along a sequence of operations. -/
theorem run_keeps_bound :
    ∀ (ops : List Op) (s t : System), s.pool.active_count_ = s.guards.length →
      s.pool.Bounded → s.pool.connections + ops.length < SIZE_MOD →
      System.run ops s = some t → t.pool.Bounded := by
  intro ops
  induction ops with
  | nil =>
    intro s t _ h2 _ hr
    simp only [System.run] at hr
    injection hr with hr
    subst hr
    exact h2
  | cons op ops ih =>
    intro s t h1 h2 h3 hr
    simp only [System.run] at hr
    cases hs : s.step op with
    | none => simp [hs] at hr
    | some u =>
      simp only [hs] at hr
      have h := step_keeps_bound s u op ops.length h1 h2 (by simpa using h3) hs
      exact ih u t h.1 h.2.1 h.2.2 hr

/-- C8, as amended: in every state reached from a successfully constructed pool by a
sequence of operations (`get_connection` with any of its three outcomes, release of a
live guard, `increase_connection`, `decrease_connection`, and `drain` where it does
not pop the empty queue), the requested size plus the number of operations being
below `2 ^ 64` so that `connections` cannot wrap, it holds that
`active_count_ + idle_connections_.size() ≤ connections`. -/
theorem bound_invariant (world : Nat → Nat → Attempt) (conn_str : String)
    (n timeout : Nat) (statements : List Statement) (p : ConnectionPool)
    (hc : ConnectionPool.construct world conn_str n timeout statements = .ok p)
    (ops : List Op) (hrange : n + ops.length < SIZE_MOD) (s : System)
    (hr : System.run ops { pool := p, guards := [] } = some s) :
    s.pool.Bounded := by
  have hok := ConnectionPool.construct_ok world conn_str n timeout statements (by omega) p hc
  refine run_keeps_bound ops { pool := p, guards := [] } s ?_ ?_ ?_ hr
  · exact hok.2.1
  · show p.active_count_ + p.idle_connections_.length ≤ p.connections
    rw [hok.1, hok.2.1]
    omega
  · show p.connections + ops.length < SIZE_MOD
    rw [hok.1]
    exact hrange

/-- Instance of C8: the run `ops_mixed` on the pool of three. -/
theorem bound_invariant_witness :
    ConnectionPool.construct world_all_up "db" 3 1000 [] = .ok pool_three_fresh ∧
    3 + ops_mixed.length < SIZE_MOD ∧
    System.run ops_mixed { pool := pool_three_fresh, guards := [] } =
      some system_after_mixed ∧
    system_after_mixed.pool.Bounded :=
  ⟨rfl, by decide, rfl,
   bound_invariant world_all_up "db" 3 1000 [] pool_three_fresh rfl ops_mixed (by decide)
     system_after_mixed rfl⟩

/-- A successful `increase_connection` on a pool whose `connections` is the largest
`size_t` wraps `connections` to 0. -/
theorem increase_at_size_max (p : ConnectionPool) (att : Nat → Attempt) (c : ConnPtr)
    (hc : ConnectionPool.create_connection p.statements (att 0) = .ok c)
    (hmax : p.connections + 1 = SIZE_MOD) (gs : List ConnectionGuard) :
    System.run [Op.increase_connection att] { pool := p, guards := gs } =
      some { pool := { p with idle_connections_ := p.idle_connections_ ++ [c],
                              connections := 0 },
             guards := gs } := by
  have hw : size_incr p.connections = 0 := by
    unfold size_incr
    rw [hmax, Nat.mod_self]
  simp only [System.run, System.step, ConnectionPool.increase_connection, hc, hw]

/-- C8 as stated fails: a pool requested with the largest `size_t`, `2 ^ 64 - 1`, on a
transport where only slot 0 connects is constructed, with `connections = 2 ^ 64 - 1`
and at least one idle connection; one successful `increase_connection` then wraps
`connections` to 0 while two or more connections are idle, so the bound is broken. -/
theorem bound_fails_after_capacity_wrap :
    ∃ p s, ConnectionPool.construct world_first_only "db" (SIZE_MOD - 1) 1000 [] = .ok p ∧
      System.run [Op.increase_connection (world_all_up 1)] { pool := p, guards := [] } =
        some s ∧
      s.pool.connections = 0 ∧ 2 ≤ s.pool.idle_connections_.length ∧ ¬ s.pool.Bounded := by
  have hn : SIZE_MOD - 1 < SIZE_MOD := by decide
  have hclean : ∀ s, ConnectionPool.connectivity_only [] (world_first_only s) := by
    intro s j e he
    unfold world_first_only at he
    split at he
    · cases he
    · injection he with he
      exact ⟨_, he.symm⟩
  have h0 : ConnectionPool.slot_result [] (world_first_only 0) = some (.ptr 0) := by decide
  have hall : ¬ ∀ i, i < SIZE_MOD - 1 →
      ConnectionPool.slot_result [] (world_first_only i) = none := by
    intro h
    have h1 := h 0 (by decide)
    rw [h0] at h1
    cases h1
  obtain ⟨p, hp⟩ : ∃ p,
      ConnectionPool.construct world_first_only "db" (SIZE_MOD - 1) 1000 [] = .ok p := by
    rw [ConnectionPool.construct_eq world_first_only "db" (SIZE_MOD - 1) 1000 [] hclean hn,
      if_neg hall]
    exact ⟨_, rfl⟩
  have hok := ConnectionPool.construct_ok world_first_only "db" (SIZE_MOD - 1) 1000 [] hn p hp
  have hne := ConnectionPool.construct_ok_nonempty world_first_only "db" (SIZE_MOD - 1)
    1000 [] hn p hp
  have hpos := SIZE_MOD_pos
  have hmax : p.connections + 1 = SIZE_MOD := by
    rw [hok.1]
    omega
  have hrun := increase_at_size_max p (world_all_up 1) (.ptr 1)
    (ConnectionPool.create_connection_up p.statements 1) hmax []
  refine ⟨p, _, hp, hrun, rfl, ?_, ?_⟩
  · show 2 ≤ (p.idle_connections_ ++ [ConnPtr.ptr 1]).length
    rw [List.length_append, List.length_singleton]
    omega
  · show ¬ (p.active_count_ + (p.idle_connections_ ++ [ConnPtr.ptr 1]).length ≤ 0)
    rw [List.length_append, List.length_singleton]
    omega

/-! ## No duplication -/

/-- An acquire or a release keeps the idle queue and the live guards free of repeated
connections. -/
theorem step_keeps_nodup (s t : System) (op : Op) (hop : op.isAcquireOrRelease = true)
    (h : (s.pool.idle_connections_ ++ s.guards.map (fun g => g.conn_)).Nodup)
    (hs : s.step op = some t) :
    (t.pool.idle_connections_ ++ t.guards.map (fun g => g.conn_)).Nodup := by
  obtain ⟨pool, guards⟩ := s
  obtain ⟨conns, tmo, idle, act, sts, cs⟩ := pool
  dsimp only at h
  cases op with
  | get_connection is_open =>
    cases idle with
    | nil =>
      simp only [System.step, ConnectionPool.get_connection] at hs
      injection hs with hs
      subst hs
      exact h
    | cons c rest =>
      by_cases ha : c.alive is_open = true
      · simp only [System.step, ConnectionPool.get_connection, ha, if_true] at hs
        injection hs with hs
        subst hs
        dsimp only
        rw [List.map_append, List.map_cons, List.map_nil, ← List.append_assoc]
        exact (List.perm_append_singleton c _).nodup_iff.2 h
      · simp only [System.step, ConnectionPool.get_connection, ha,
          ConnectionPool.protocol_con_failed] at hs
        injection hs with hs
        subst hs
        dsimp only
        exact (List.nodup_cons.1 h).2
  | release i =>
    simp only [System.step] at hs
    cases hg : guards[i]? with
    | none => simp [hg] at hs
    | some g =>
      simp only [hg] at hs
      injection hs with hs
      subst hs
      dsimp only [ConnectionGuard.destructor]
      have hperm := (perm_cons_eraseIdx guards i g hg).map (fun g => g.conn_)
      rw [List.map_cons] at hperm
      rw [List.append_assoc, List.singleton_append]
      exact (List.Perm.append_left idle hperm).nodup_iff.1 h
  | increase_connection att => cases hop
  | decrease_connection => cases hop
  | drain => cases hop

/-- C9: with each `get_connection` and each release taken as one atomic step, in every
state reached from a constructed pool whose connections are pairwise distinct by any
interleaving of `get_connection` and release steps, no connection is held by two live
guards, none occurs twice in the idle queue, and none is both idle and held by a
guard. -/
theorem no_duplication (world : Nat → Nat → Attempt) (conn_str : String)
    (n timeout : Nat) (statements : List Statement) (p : ConnectionPool)
    (_hc : ConnectionPool.construct world conn_str n timeout statements = .ok p)
    (hd : p.idle_connections_.Nodup) (ops : List Op)
    (hops : ∀ op, op ∈ ops → op.isAcquireOrRelease = true) (s : System)
    (hr : System.run ops { pool := p, guards := [] } = some s) :
    (s.guards.map (fun g => g.conn_)).Nodup ∧ s.pool.idle_connections_.Nodup ∧
      ∀ c, c ∈ s.pool.idle_connections_ → c ∉ s.guards.map (fun g => g.conn_) := by
  have key : ∀ (ops : List Op) (s t : System),
      (∀ op, op ∈ ops → op.isAcquireOrRelease = true) →
      (s.pool.idle_connections_ ++ s.guards.map (fun g => g.conn_)).Nodup →
      System.run ops s = some t →
      (t.pool.idle_connections_ ++ t.guards.map (fun g => g.conn_)).Nodup := by
    intro ops
    induction ops with
    | nil =>
      intro s t _ h hr
      simp only [System.run] at hr
      injection hr with hr
      subst hr
      exact h
    | cons op ops ih =>
      intro s t hops h hr
      simp only [System.run] at hr
      cases hs : s.step op with
      | none => simp [hs] at hr
      | some u =>
        simp only [hs] at hr
        exact ih u t (fun o ho => hops o (List.mem_cons_of_mem _ ho))
          (step_keeps_nodup s u op (hops op (List.mem_cons_self _ _)) h hs) hr
  have h := key ops { pool := p, guards := [] } s hops (by simpa using hd) hr
  rw [List.nodup_append] at h
  exact ⟨h.2.1, h.1, fun c hc1 hc2 => h.2.2 hc1 hc2⟩

/-- Instance of C9: the interleaving `ops_acquire_release` on the pool of three. -/
theorem no_duplication_witness :
    ConnectionPool.construct world_all_up "db" 3 1000 [] = .ok pool_three_fresh ∧
    pool_three_fresh.idle_connections_.Nodup ∧
    System.run ops_acquire_release { pool := pool_three_fresh, guards := [] } =
      some system_after_acquire_release ∧
    (system_after_acquire_release.guards.map (fun g => g.conn_)).Nodup ∧
    system_after_acquire_release.pool.idle_connections_.Nodup :=
  have h := no_duplication world_all_up "db" 3 1000 [] pool_three_fresh rfl (by decide)
    ops_acquire_release
    (by
      intro op hop
      simp only [ops_acquire_release, List.mem_cons, List.mem_singleton, List.not_mem_nil,
        or_false] at hop
      rcases hop with rfl | rfl | rfl | rfl <;> rfl)
    system_after_acquire_release rfl
  ⟨rfl, by decide, rfl, h.1, h.2.1⟩

/-! ## Shrinking -/

/-- C11, as amended: on a non-empty idle queue `conn :: rest`, `decrease_connection`
returns `true`, removes exactly the front so that the queue becomes `rest`, leaves
`active_count_`, the other members and every live guard untouched, and decrements
`connections` as a `size_t`: it decreases by exactly 1 provided it was positive; on
an empty idle queue (the queue the timed-out wait observes) it returns `false` and
leaves the pool, and the guards, exactly as they were. -/
theorem decrease_connection_spec (p : ConnectionPool) (gs : List ConnectionGuard) :
    (∀ conn rest, p.idle_connections_ = conn :: rest →
      ConnectionPool.decrease_connection p =
        (true, { p with idle_connections_ := rest,
                        connections := size_decr p.connections }) ∧
      (ConnectionPool.decrease_connection p).2.idle_connections_ = rest ∧
      (0 < p.connections → p.connections < SIZE_MOD →
        (ConnectionPool.decrease_connection p).2.connections + 1 = p.connections) ∧
      (ConnectionPool.decrease_connection p).2.active_count_ = p.active_count_) ∧
    (p.idle_connections_ = [] → ConnectionPool.decrease_connection p = (false, p)) ∧
    System.step { pool := p, guards := gs } Op.decrease_connection =
      some { pool := (ConnectionPool.decrease_connection p).2, guards := gs } := by
  refine ⟨?_, ?_, rfl⟩
  · intro conn rest hq
    have e : ConnectionPool.decrease_connection p =
        (true, { p with idle_connections_ := rest,
                        connections := size_decr p.connections }) := by
      unfold ConnectionPool.decrease_connection
      rw [hq]
    rw [e]
    refine ⟨rfl, rfl, ?_, rfl⟩
    intro h0 hlt
    show size_decr p.connections + 1 = p.connections
    rw [size_decr_of_pos h0 hlt]
    omega
  · intro hq
    unfold ConnectionPool.decrease_connection
    rw [hq]

/-- Instance of C11: `pool_two_idle` loses its front connection 1, and the pool with
nothing idle is left alone. -/
theorem decrease_connection_spec_witness :
    ((ConnectionPool.decrease_connection pool_two_idle).1 = true ∧
      (ConnectionPool.decrease_connection pool_two_idle).2.idle_connections_ = [.ptr 2] ∧
      (ConnectionPool.decrease_connection pool_two_idle).2.connections + 1 = 3 ∧
      (ConnectionPool.decrease_connection pool_two_idle).2.active_count_ = 1) ∧
    ConnectionPool.decrease_connection pool_all_leased = (false, pool_all_leased) :=
  have h := (decrease_connection_spec pool_two_idle []).1 (.ptr 1) [.ptr 2] rfl
  ⟨⟨by rw [h.1], h.2.1, h.2.2.1 (by decide) (by decide), h.2.2.2⟩,
   (decrease_connection_spec pool_all_leased []).2.1 rfl⟩

/-- C11 as stated fails: on `pool_capacity_zero`, whose idle queue is `[1]` and whose
`connections` is 0, `decrease_connection` returns `true` and `--connections` wraps to
`2 ^ 64 - 1`, which is not a decrease by 1. -/
theorem decrease_connection_wraps_connections :
    pool_capacity_zero.idle_connections_ = [.ptr 1] ∧
    (ConnectionPool.decrease_connection pool_capacity_zero).1 = true ∧
    (ConnectionPool.decrease_connection pool_capacity_zero).2.connections = SIZE_MOD - 1 ∧
    (ConnectionPool.decrease_connection pool_capacity_zero).2.connections + 1 ≠
      pool_capacity_zero.connections :=
  ⟨rfl, rfl, rfl, Nat.succ_ne_zero _⟩

/-! ## Drain -/

/-- The loop of `drain` on a pool without counted leases pops every idle connection. -/
theorem drain_loop_no_lease :
    ∀ (l : List ConnPtr), l.length < SIZE_MOD → ConnectionPool.drain_loop 0 l = .ok [] := by
  intro l
  induction l with
  | nil =>
    intro _
    have h : size_add 0 0 = 0 := by decide
    rw [ConnectionPool.drain_loop, h]
    simp
  | cons c rest ih =>
    intro hlt
    have hs : size_add (c :: rest).length 0 ≠ 0 := by
      unfold size_add
      rw [Nat.add_zero, Nat.mod_eq_of_lt hlt]
      simp
    rw [ConnectionPool.drain_loop, if_pos hs]
    exact ih (by simp only [List.length_cons] at hlt; omega)

/-- On a pool without counted leases `drain` completes and empties the idle queue;
`connections` keeps its value. -/
theorem drain_no_lease (p : ConnectionPool) (h0 : p.active_count_ = 0)
    (hlt : p.idle_connections_.length < SIZE_MOD) :
    ConnectionPool.drain p = .ok { p with idle_connections_ := [], active_count_ := 0 } := by
  unfold ConnectionPool.drain
  rw [h0, drain_loop_no_lease p.idle_connections_ hlt]

/-- When `drain` completes on a pool whose counters are in range, no lease was counted,
the idle queue ends empty, and `connections` keeps its value. -/
theorem drain_ok_eq (p q : ConnectionPool)
    (hlt : p.idle_connections_.length + p.active_count_ < SIZE_MOD)
    (h : ConnectionPool.drain p = .ok q) :
    p.active_count_ = 0 ∧ q = { p with idle_connections_ := [], active_count_ := 0 } := by
  unfold ConnectionPool.drain at h
  cases hd : ConnectionPool.drain_loop p.active_count_ p.idle_connections_ with
  | error f => rw [hd] at h; cases h
  | ok l =>
    rw [hd] at h
    have hl := drain_loop_ok p.active_count_ p.idle_connections_ l hlt hd
    injection h with h
    rw [hl.2] at h
    exact ⟨hl.1, h.symm⟩

/-- With a lease counted and the counters in range, the loop of `drain` pops the empty
queue. -/
theorem drain_loop_fault (a : Nat) (ha : 0 < a) :
    ∀ (l : List ConnPtr), l.length + a < SIZE_MOD →
      ConnectionPool.drain_loop a l = .error .pop_on_empty_queue := by
  intro l
  induction l with
  | nil =>
    intro hlt
    have hs : size_add 0 a ≠ 0 := by
      unfold size_add
      rw [Nat.zero_add, Nat.mod_eq_of_lt (by simpa using hlt)]
      omega
    rw [ConnectionPool.drain_loop, if_pos hs]
  | cons c rest ih =>
    intro hlt
    have hs : size_add (c :: rest).length a ≠ 0 := by
      unfold size_add
      rw [Nat.mod_eq_of_lt hlt]
      simp
    rw [ConnectionPool.drain_loop, if_pos hs]
    exact ih (by simp only [List.length_cons] at hlt; omega)

/-- With a lease counted and the counters in range, `drain` pops the empty queue. -/
theorem drain_fault (p : ConnectionPool) (ha : 0 < p.active_count_)
    (hlt : p.idle_connections_.length + p.active_count_ < SIZE_MOD) :
    ConnectionPool.drain p = .error .pop_on_empty_queue := by
  unfold ConnectionPool.drain
  rw [drain_loop_fault p.active_count_ ha p.idle_connections_ hlt]

/-- When the size of a non-empty idle queue plus `active_count_` is exactly `2 ^ 64`,
the sum wraps to 0, the loop of `drain` is not entered, and only `active_count_` is
reset. -/
theorem drain_at_wrap (p : ConnectionPool) (c : ConnPtr) (rest : List ConnPtr)
    (hq : p.idle_connections_ = c :: rest)
    (hw : rest.length + 1 + p.active_count_ = SIZE_MOD) :
    ConnectionPool.drain p = .ok { p with active_count_ := 0 } := by
  have hs : size_add (c :: rest).length p.active_count_ = 0 := by
    unfold size_add
    rw [List.length_cons, hw, Nat.mod_self]
  unfold ConnectionPool.drain
  rw [hq, ConnectionPool.drain_loop, if_neg (by rw [hs]; simp)]

/-- C12, the code on the freshly constructed pool of three: `drain` returns with the
idle queue empty and `active_count_` 0, but `connections` is not touched, so
`get_current_connections()` still answers 3. -/
theorem drain_keeps_connections :
    ConnectionPool.drain pool_three_fresh =
      .ok { pool_three_fresh with idle_connections_ := [], active_count_ := 0 } ∧
    ({ pool_three_fresh with idle_connections_ := [], active_count_ := 0 } :
      ConnectionPool).get_current_connections = 3 :=
  ⟨drain_no_lease pool_three_fresh rfl (by decide), rfl⟩

/-- On every pool state whose idle-queue size plus `active_count_` is below `2 ^ 64`
and on which `drain` completes, a second `drain` completes too and leaves the state
exactly as the first one did. -/
theorem drain_idempotent (p q : ConnectionPool)
    (hlt : p.idle_connections_.length + p.active_count_ < SIZE_MOD)
    (h : ConnectionPool.drain p = .ok q) :
    ConnectionPool.drain q = .ok q := by
  have hq := (drain_ok_eq p q hlt h).2
  have h2 := drain_no_lease q (by rw [hq]) (by rw [hq]; exact SIZE_MOD_pos)
  rw [h2]
  congr 1
  rw [hq]

/-- The pool of three, drained twice. -/
theorem drain_idempotent_witness :
    pool_three_fresh.idle_connections_.length + pool_three_fresh.active_count_ < SIZE_MOD ∧
    ConnectionPool.drain pool_three_fresh =
      .ok { pool_three_fresh with idle_connections_ := [], active_count_ := 0 } ∧
    ConnectionPool.drain
        { pool_three_fresh with idle_connections_ := [], active_count_ := 0 } =
      .ok { pool_three_fresh with idle_connections_ := [], active_count_ := 0 } :=
  ⟨by decide, drain_no_lease pool_three_fresh rfl (by decide),
   drain_idempotent pool_three_fresh _ (by decide)
     (drain_no_lease pool_three_fresh rfl (by decide))⟩

/-- C13, the code on `pool_active_max` (one idle connection, `active_count_` the
largest `size_t`): the loop condition `idle_connections_.size() + active_count_` is
`1 + (2 ^ 64 - 1)`, which wraps to 0, so the first `drain` completes without popping
the idle connection and only resets `active_count_`; the second `drain` then pops it,
leaving a different state. -/
theorem drain_twice_differs_at_wrap :
    ConnectionPool.drain pool_active_max = .ok { pool_active_max with active_count_ := 0 } ∧
    ConnectionPool.drain { pool_active_max with active_count_ := 0 } =
      .ok { pool_active_max with idle_connections_ := [], active_count_ := 0 } ∧
    ConnectionPool.drain { pool_active_max with active_count_ := 0 } ≠
      .ok { pool_active_max with active_count_ := 0 } := by
  have h1 := drain_at_wrap pool_active_max (.ptr 0) [] rfl (by decide)
  have h2 := drain_no_lease { pool_active_max with active_count_ := 0 } rfl (by decide)
  refine ⟨h1, h2, ?_⟩
  rw [h2]
  intro h
  injection h with h
  have hi := congrArg ConnectionPool.idle_connections_ h
  cases hi

/-- C18, the code on `pool_two_idle` (two idle connections, one lease out): the loop of
`drain` pops the two idle connections and then pops the empty queue. -/
theorem drain_pops_empty_queue :
    ConnectionPool.drain pool_two_idle = .error .pop_on_empty_queue :=
  drain_fault pool_two_idle (by decide) (by decide)

/-- C19, the code on a pool whose only connection is leased out: `drain` pops the empty
queue; and on the drained state (nothing idle, `active_count_` 0) the destructor of
the guard puts the connection back in the idle queue and wraps `active_count_` to
`2 ^ 64 - 1`. -/
theorem release_after_drain_requeues :
    ConnectionPool.drain pool_one_leased = .error .pop_on_empty_queue ∧
    (ConnectionGuard.destructor { conn_ := .ptr 0 } pool_one_drained).idle_connections_ =
      [.ptr 0] ∧
    (ConnectionGuard.destructor { conn_ := .ptr 0 } pool_one_drained).active_count_ =
      SIZE_MOD - 1 :=
  ⟨drain_fault pool_one_leased (by decide) (by decide), rfl, rfl⟩

/-- C20: constructing a pool with requested size 0 throws `pqxx::broken_connection`
whatever the target, the timeout, the statements and the transport: the slot loop
does not run, so no attempt is made, and `failed == connections` holds as `0 == 0`. -/
theorem construct_zero_fails (world : Nat → Nat → Attempt) (conn_str : String)
    (timeout : Nat) (statements : List Statement) :
    ConnectionPool.slot_loop world statements 0 0 ([], 0) = .ok ([], 0) ∧
    ConnectionPool.construct world conn_str 0 timeout statements =
      .error (.broken_connection
        "Couldnt connect to database, while initiailzing connections") :=
  ⟨rfl, rfl⟩

/-! ## The registry -/

namespace ConnectionPoolManager

/-- A name has no entry exactly when it is not among the keys. -/
theorem lookup_eq_none_iff_keys (l : List (String × ConnectionPool)) (name : String) :
    l.lookup name = none ↔ name ∉ l.map Prod.fst := by
  induction l with
  | nil => simp
  | cons e rest ih =>
    obtain ⟨k, v⟩ := e
    rw [List.lookup_cons, List.map_cons, List.mem_cons, not_or]
    by_cases hk : name = k
    · subst hk
      simp
    · have hb : (name == k) = false := by simpa using hk
      rw [hb]
      simp only
      rw [ih]
      exact ⟨fun h => ⟨hk, h⟩, fun h => h.2⟩

/-- The pool a name is looked up to is stored under that name. -/
theorem mem_of_lookup (l : List (String × ConnectionPool)) (name : String)
    (pool : ConnectionPool) (h : l.lookup name = some pool) : (name, pool) ∈ l := by
  induction l with
  | nil => simp at h
  | cons e rest ih =>
    obtain ⟨k, v⟩ := e
    rw [List.lookup_cons] at h
    by_cases hk : name = k
    · subst hk
      simp at h
      subst h
      exact List.mem_cons_self _ _
    · have hb : (name == k) = false := by simpa using hk
      rw [hb] at h
      exact List.mem_cons_of_mem _ (ih h)

/-- The call `get_pool` in terms of the entry of the name. -/
theorem get_pool_eq (m : ConnectionPoolManager) (name : String) :
    get_pool m name =
      match m.pools_.lookup name with
      | some pool => (.ok pool, m)
      | none => (.error (.out_of_range "unordered_map::at"), m) := rfl

/-- C15: `registerPool` on a name that is registered, `get_pool` of it returning
`pool0`, returns `true` whatever the target, the size, the timeout, the statements
and the transport (so also when a construction would fail: none is attempted, the
result not depending on the transport), leaves the registry unchanged, and a
following `get_pool` of the name returns `pool0`. -/
theorem registerPool_present (m : ConnectionPoolManager) (name : String)
    (pool0 : ConnectionPool) (hreg : (get_pool m name).1 = .ok pool0)
    (world : Nat → Nat → Attempt) (conn_str : String) (n timeout : Nat)
    (statements : List Statement) :
    registerPool world m conn_str name n timeout statements = (.ok true, m) ∧
    (get_pool (registerPool world m conn_str name n timeout statements).2 name).1 =
      .ok pool0 := by
  have hl : ∃ pool, m.pools_.lookup name = some pool := by
    cases h : m.pools_.lookup name with
    | some pool => exact ⟨pool, rfl⟩
    | none =>
      rw [get_pool_eq, h] at hreg
      cases hreg
  obtain ⟨pool, hl⟩ := hl
  have e : registerPool world m conn_str name n timeout statements = (.ok true, m) := by
    unfold registerPool
    rw [hl]
  rw [e]
  exact ⟨rfl, hreg⟩

/-- Instance of C15: `main_db` registered again on a transport where nothing
connects. -/
theorem registerPool_present_witness :
    (get_pool registry_main "main_db").1 = .ok pool_three_fresh ∧
    registerPool world_all_down registry_main "other_db" "main_db" 2 5 [] =
      (.ok true, registry_main) ∧
    (get_pool (registerPool world_all_down registry_main "other_db" "main_db" 2 5 []).2
      "main_db").1 = .ok pool_three_fresh :=
  ⟨rfl, registerPool_present registry_main "main_db" pool_three_fresh rfl
    world_all_down "other_db" 2 5 []⟩

/-- C16: `get_pool(name)` throws `std::out_of_range` if and only if the name is not a
key of the registry; when the name is a key it returns a pool that is stored under
that name (the one of its entry); and in both cases the registry is unchanged. -/
theorem get_pool_spec (m : ConnectionPoolManager) (name : String) :
    ((∃ what, (get_pool m name).1 = .error (.out_of_range what)) ↔
      name ∉ m.pools_.map Prod.fst) ∧
    (name ∈ m.pools_.map Prod.fst →
      ∃ pool, m.pools_.lookup name = some pool ∧ (name, pool) ∈ m.pools_ ∧
        (get_pool m name).1 = .ok pool) ∧
    (get_pool m name).2 = m := by
  rw [get_pool_eq]
  cases hl : m.pools_.lookup name with
  | none =>
    have hk := (lookup_eq_none_iff_keys m.pools_ name).1 hl
    exact ⟨⟨fun _ => hk, fun _ => ⟨_, rfl⟩⟩, fun h => absurd h hk, rfl⟩
  | some pool =>
    have hk : ¬ name ∉ m.pools_.map Prod.fst := by
      intro h
      rw [(lookup_eq_none_iff_keys m.pools_ name).2 h] at hl
      cases hl
    refine ⟨⟨?_, fun h => absurd h hk⟩, fun _ => ⟨pool, rfl, mem_of_lookup _ _ _ hl, rfl⟩, rfl⟩
    rintro ⟨what, h⟩
    cases h

/-- Instance of C16: `main_db` is found in `registry_main`, and `second` is not. -/
theorem get_pool_spec_witness :
    (∃ pool, registry_main.pools_.lookup "main_db" = some pool ∧
      ("main_db", pool) ∈ registry_main.pools_ ∧
      (get_pool registry_main "main_db").1 = .ok pool) ∧
    ∃ what, (get_pool registry_main "second").1 = .error (.out_of_range what) :=
  ⟨(get_pool_spec registry_main "main_db").2.1 (by decide),
   (get_pool_spec registry_main "second").1.2 (by decide)⟩

/-- On a registry none of whose pools has a counted lease, `shutdown` completes, the
map is empty afterwards, and `get_pool` throws `std::out_of_range` for every name. -/
theorem shutdown_no_leases (m : ConnectionPoolManager)
    (h : ∀ e, e ∈ m.pools_ → e.2.active_count_ = 0 ∧ e.2.idle_connections_.length < SIZE_MOD) :
    shutdown m = .ok { pools_ := [] } ∧
    ∀ name, (get_pool { pools_ := [] } name).1 = .error (.out_of_range "unordered_map::at") := by
  have key : ∀ l : List (String × ConnectionPool),
      (∀ e, e ∈ l → e.2.active_count_ = 0 ∧ e.2.idle_connections_.length < SIZE_MOD) →
      ∃ r, drain_all l = .ok r := by
    intro l
    induction l with
    | nil => intro _; exact ⟨[], rfl⟩
    | cons e rest ih =>
      intro hl
      obtain ⟨k, v⟩ := e
      have hv := hl (k, v) (List.mem_cons_self _ _)
      obtain ⟨r, hr⟩ := ih (fun e he => hl e (List.mem_cons_of_mem _ he))
      refine ⟨(k, { v with idle_connections_ := [], active_count_ := 0 }) :: r, ?_⟩
      rw [drain_all, drain_no_lease v hv.1 hv.2, hr]
  obtain ⟨r, hr⟩ := key m.pools_ h
  refine ⟨?_, fun name => rfl⟩
  unfold shutdown
  rw [hr]

/-- C17, the code on `registry_leased`, whose pool `main_db` has a lease out: the
`drain` of that pool pops the empty queue, so `shutdown` does not get to
`pools_.clear()`. -/
theorem shutdown_pops_empty_queue :
    shutdown registry_leased = .error .pop_on_empty_queue := by
  unfold shutdown
  rw [show drain_all registry_leased.pools_ = .error .pop_on_empty_queue from by
    show drain_all [("main_db", pool_two_idle)] = _
    rw [drain_all, drain_fault pool_two_idle (by decide) (by decide)]]

end ConnectionPoolManager

end PqxxPool
